import Mathlib

/-!
Shallow embedding of the resolver / authorization / subscription layer of the
hackernews-react-apollo GraphQL server (src/server/src/resolvers/Query.js,
src/server/src/resolvers/Mutation.js plus the vote resolver, src/utils.js
getUserId, and the in-memory link resolver from the server README), together
with models of its external collaborators (jsonwebtoken, bcryptjs, and the
Prisma data-access client, which are libraries outside this repository).
-/

deriving instance DecidableEq for Except

namespace HackerNews

/-- Error taxonomy of the resolver layer (§7 of the design): every resolver
failure is a thrown exception; we classify each throw site by its kind.
The exception thrown by jwt.verify on a bad token is classified
NotAuthenticated, the category for missing/invalid credentials. -/
inductive Err where
  | NotAuthenticated
  | NoSuchUser
  | InvalidCredentials
  | DuplicateEmail
  | DuplicateVote
  | NotFound
deriving DecidableEq, Repr

/-- User record of the Prisma datamodel: id, name, unique email, password
(stored value; the resolvers decide what goes in). -/
structure User where
  id : String
  name : String
  email : String
  password : String
deriving DecidableEq, Repr

/-- Link record of the Prisma datamodel: id, createdAt, description, url,
optional postedBy (id of the owning User). -/
structure Link where
  id : String
  createdAt : Nat
  description : String
  url : String
  postedBy : Option String
deriving DecidableEq, Repr

/-- Vote record of the Prisma datamodel: one Link, one User. -/
structure Vote where
  id : String
  linkId : String
  userId : String
deriving DecidableEq, Repr

/-- The persistent store behind the Prisma client: the three entity tables
plus a counter from which fresh opaque ids (and creation timestamps) are
assigned. -/
structure Store where
  users : List User
  links : List Link
  votes : List Vote
  nextId : Nat
deriving DecidableEq, Repr

/-! ### External primitives: jsonwebtoken and bcryptjs

The token signing and password hashing algorithms are external libraries
(jsonwebtoken, bcryptjs); the design treats them as primitives. We model
them as concrete injective taggings so every contract they are used under
(verify (sign u) = u, compare p (hash p) = true, hash is one-way in the
sense hash p ≠ p) is available and executable. -/

/-- Model of jwt.sign with the process-wide APP_SECRET: a signed credential
embedding the subject id. -/
def jwtSign (userId : String) : String :=
  ⟨'j' :: 'w' :: 't' :: '.' :: userId.data⟩

/-- Model of jwt.verify with the same secret: recovers the subject id of a
well-formed signed token, fails (returns none, i.e. the library throws) on
anything else. -/
def jwtVerify (token : String) : Option String :=
  match token.data with
  | 'j' :: 'w' :: 't' :: '.' :: rest => some ⟨rest⟩
  | _ => none

/-- Model of bcrypt.hash(password, 10): a salted one-way hash. -/
def bcryptHash (password : String) : String :=
  ⟨'$' :: '2' :: 'a' :: '$' :: password.data⟩

/-- Model of bcrypt.compare(password, hash). -/
def bcryptCompare (password hash : String) : Bool :=
  bcryptHash password == hash

/-- JavaScript String.prototype.replace with a string pattern and empty
replacement: removes the first occurrence of `pat` (identity when `pat`
does not occur). -/
def removeFirstAux (pat : List Char) : List Char → List Char
  | [] => []
  | c :: cs =>
    if pat.isPrefixOf (c :: cs) then (c :: cs).drop pat.length
    else c :: removeFirstAux pat cs

/-- `replaceFirst s pat` is JS `s.replace(pat, '')`. -/
def replaceFirst (s pat : String) : String :=
  ⟨removeFirstAux pat.data s.data⟩

/-- getUserId (src/unnamed/part_005 = src/utils.js): reads the Authorization
header from the request, strips the first occurrence of "Bearer ", verifies
the JWT and returns the embedded userId; throws when the header is absent
(or empty: JS truthiness of the header string) or when verification throws. -/
def getUserId (authorization : Option String) : Except Err String :=
  match authorization with
  | some a =>
    if a = "" then .error .NotAuthenticated
    else
      match jwtVerify (replaceFirst a "Bearer ") with
      | some userId => .ok userId
      | none => .error .NotAuthenticated
  | none => .error .NotAuthenticated

/-! ### Prisma data-access facade

The Prisma client is generated code outside this repository; the design
(§4.3) specifies only its interface: per-entity create/get/list/update/
delete/exists/count with documented filter, pagination and ordering
semantics. The definitions below implement that documented contract over
`Store`. -/

/-- `strContains hay needle`: JS/Prisma substring containment
(description_contains / url_contains), case-sensitive. -/
def strContains (hay needle : String) : Bool :=
  decide (needle.data <:+: hay.data)

/-- The LinkOrderByInput enum of the generated client. -/
inductive LinkOrderBy where
  | createdAt_ASC
  | createdAt_DESC
  | description_ASC
  | description_DESC
  | url_ASC
  | url_DESC
deriving DecidableEq, Repr

/-- Ordering applied by the client's list query. -/
def orderLinks (ob : Option LinkOrderBy) (ls : List Link) : List Link :=
  match ob with
  | none => ls
  | some .createdAt_ASC => ls.mergeSort (fun a b => decide (a.createdAt ≤ b.createdAt))
  | some .createdAt_DESC => ls.mergeSort (fun a b => decide (b.createdAt ≤ a.createdAt))
  | some .description_ASC => ls.mergeSort (fun a b => decide (a.description ≤ b.description))
  | some .description_DESC => ls.mergeSort (fun a b => decide (b.description ≤ a.description))
  | some .url_ASC => ls.mergeSort (fun a b => decide (a.url ≤ b.url))
  | some .url_DESC => ls.mergeSort (fun a b => decide (b.url ≤ a.url))

/-- The `where` object built by the feed resolver, as data: either no
constraint or the OR of description_contains / url_contains for one
filter string. -/
def linkMatches (w : Option String) (l : Link) : Bool :=
  match w with
  | none => true
  | some f => strContains l.description f || strContains l.url f

/-- Prisma list pagination: `first` absent means no limit. -/
def takeOpt (n : Option Nat) (ls : List α) : List α :=
  match n with
  | none => ls
  | some n => ls.take n

/-- prisma.links({ where, skip, first, orderBy }): filter, order, then
drop `skip` (absent = 0) and keep at most `first`. -/
def prismaLinks (s : Store) (w : Option String) (skip first : Option Nat)
    (ob : Option LinkOrderBy) : List Link :=
  takeOpt first ((orderLinks ob (s.links.filter (linkMatches w))).drop (skip.getD 0))

/-- prisma.linksConnection({ where }).aggregate().count(): the number of
Links matching the filter, with no pagination arguments. -/
def prismaLinksCount (s : Store) (w : Option String) : Nat :=
  (s.links.filter (linkMatches w)).length

/-- prisma.user({ email }): unique lookup by email. -/
def prismaUserByEmail (s : Store) (email : String) : Option User :=
  s.users.find? (fun u => u.email == email)

/-- Fresh opaque id assigned at creation. -/
def freshId (s : Store) : String :=
  ⟨'i' :: 'd' :: (Nat.toDigits 10 s.nextId)⟩

def userExists (s : Store) (id : String) : Bool :=
  s.users.any (fun u => u.id == id)

def linkExistsId (s : Store) (id : String) : Bool :=
  s.links.any (fun l => l.id == id)

/-- prisma.createUser: rejects a non-unique email (the datamodel marks
email @unique), otherwise appends a fresh User record. -/
def createUser (s : Store) (userName email password : String) :
    Except Err (User × Store) :=
  if s.users.any (fun u => u.email == email) then .error .DuplicateEmail
  else
    let u : User := { id := freshId s, name := userName, email := email, password := password }
    .ok (u, { s with users := s.users ++ [u], nextId := s.nextId + 1 })

/-- prisma.createLink with postedBy: connect: fails when the connected User
id does not exist, otherwise appends a fresh Link record. -/
def createLink (s : Store) (url description : String) (postedBy : String) :
    Except Err (Link × Store) :=
  if userExists s postedBy then
    let l : Link := { id := freshId s, createdAt := s.nextId,
                      description := description, url := url,
                      postedBy := some postedBy }
    .ok (l, { s with links := s.links ++ [l], nextId := s.nextId + 1 })
  else .error .NotFound

/-- prisma.deleteLink({ where: id }): fails when no Link has the id,
otherwise removes the record and returns it. -/
def deleteLinkStore (s : Store) (id : String) : Except Err (Link × Store) :=
  match s.links.find? (fun l => l.id == id) with
  | none => .error .NotFound
  | some l => .ok (l, { s with links := s.links.eraseP (fun x => x.id == id) })

/-- prisma.updateLink({ data, where: id }): fails when no Link has the id,
otherwise overwrites url and description of the record and returns it. -/
def updateLinkStore (s : Store) (id url description : String) :
    Except Err (Link × Store) :=
  match s.links.find? (fun l => l.id == id) with
  | none => .error .NotFound
  | some l =>
    let l2 : Link := { l with url := url, description := description }
    .ok (l2, { s with links := s.links.map (fun x => if x.id == id then l2 else x) })

/-- prisma.$exists.vote({ user: id, link: id }). -/
def voteExists (s : Store) (userId linkId : String) : Bool :=
  s.votes.any (fun v => v.userId == userId && v.linkId == linkId)

/-- prisma.createVote with user/link connect: fails when either connected id
does not exist, otherwise appends a fresh Vote record. -/
def createVote (s : Store) (userId linkId : String) : Except Err (Vote × Store) :=
  if userExists s userId && linkExistsId s linkId then
    let v : Vote := { id := freshId s, linkId := linkId, userId := userId }
    .ok (v, { s with votes := s.votes ++ [v], nextId := s.nextId + 1 })
  else .error .NotFound

/-! ### Events

On a successful store mutation the created entity is published to live
subscribers (`link.created` via the newLink subscription, `vote.created` via
newVote). We record the events a mutation publishes alongside its result. -/

inductive Event where
  | linkCreated (link : Link)
  | voteCreated (vote : Vote)
deriving DecidableEq, Repr

/-! ### Resolvers -/

/-- The Feed payload: links plus the separately computed total count. -/
structure Feed where
  links : List Link
  count : Nat
deriving DecidableEq, Repr

/-- The `where` argument the feed resolver builds:
`args.filter ? { OR: [...] } : {}` — note the empty string is falsy in JS,
so it yields the unconstrained `{}` exactly like an absent filter. -/
def feedWhere (filter : Option String) : Option String :=
  match filter with
  | some f => if f = "" then none else some f
  | none => none

/-- Query.feed (src/server/src/resolvers/Query.js): no authentication;
builds the where object, lists links with skip/first/orderBy passed
through, and separately counts all matching links ignoring pagination. -/
def feed (s : Store) (filter : Option String) (skip first : Option Nat)
    (orderBy : Option LinkOrderBy) : Feed :=
  let w := feedWhere filter
  { links := prismaLinks s w skip first orderBy
    count := prismaLinksCount s w }

/-- Query.link (in-memory variant, src/server/README.md): finds the link
with the given id, returning it or null — a total function, never a throw. -/
def linkQuery (s : Store) (id : String) : Option Link :=
  s.links.find? (fun l => l.id == id)

/-- Mutation.post: authenticate, then create the Link with the caller as
postedBy; publishes link.created. -/
def post (s : Store) (auth : Option String) (url description : String) :
    Except Err (Link × Store × List Event) :=
  match getUserId auth with
  | .error e => .error e
  | .ok userId =>
    match createLink s url description userId with
    | .error e => .error e
    | .ok (l, s2) => .ok (l, s2, [.linkCreated l])

/-- AuthPayload: token plus user, returned by signup and login. -/
structure AuthPayload where
  token : String
  user : User
deriving DecidableEq, Repr

/-- Mutation.signup: hash the password with bcrypt, persist the User with
the hash in place of the plaintext, sign a token for the new id. -/
def signup (s : Store) (email password userName : String) :
    Except Err (AuthPayload × Store × List Event) :=
  let hashed := bcryptHash password
  match createUser s userName email hashed with
  | .error e => .error e
  | .ok (user, s2) => .ok ({ token := jwtSign user.id, user := user }, s2, [])

/-- Mutation.login: look the User up by email (throw when absent), compare
the supplied password against the stored hash (throw on mismatch), then
sign a token. No store mutation. -/
def login (s : Store) (email password : String) :
    Except Err (AuthPayload × Store × List Event) :=
  match prismaUserByEmail s email with
  | none => .error .NoSuchUser
  | some user =>
    if bcryptCompare password user.password then
      .ok ({ token := jwtSign user.id, user := user }, s, [])
    else .error .InvalidCredentials

/-- Mutation.deleteLink: authenticate (the identity is discarded — presence
only, no ownership check), then delete by id. -/
def deleteLink (s : Store) (auth : Option String) (id : String) :
    Except Err (Link × Store × List Event) :=
  match getUserId auth with
  | .error e => .error e
  | .ok _ =>
    match deleteLinkStore s id with
    | .error e => .error e
    | .ok (l, s2) => .ok (l, s2, [])

/-- Mutation.updateLink: authenticate (presence only), then update url and
description by id. -/
def updateLink (s : Store) (auth : Option String) (id url description : String) :
    Except Err (Link × Store × List Event) :=
  match getUserId auth with
  | .error e => .error e
  | .ok _ =>
    match updateLinkStore s id url description with
    | .error e => .error e
    | .ok (l, s2) => .ok (l, s2, [])

/-- Mutation.vote (src/unnamed/part_004): authenticate, check existence of a
Vote for the (caller, link) pair, throw DuplicateVote when one exists,
otherwise create the Vote; publishes vote.created. -/
def vote (s : Store) (auth : Option String) (linkId : String) :
    Except Err (Vote × Store × List Event) :=
  match getUserId auth with
  | .error e => .error e
  | .ok userId =>
    if voteExists s userId linkId then .error .DuplicateVote
    else
      match createVote s userId linkId with
      | .error e => .error e
      | .ok (v, s2) => .ok (v, s2, [.voteCreated v])

/-- The store an operation leaves behind: a thrown resolver leaves the store
untouched (the facade call it would have made was never issued). -/
def applyStore (s : Store) (r : Except Err (α × Store × List Event)) : Store :=
  match r with
  | .ok (_, s2, _) => s2
  | .error _ => s

/-- The events an operation publishes: a thrown resolver publishes none. -/
def emittedEvents (r : Except Err (α × Store × List Event)) : List Event :=
  match r with
  | .ok (_, _, es) => es
  | .error _ => []

/-- Number of Vote records for one (user, link) pair. -/
def pairCount (s : Store) (userId linkId : String) : Nat :=
  (s.votes.filter (fun v => v.userId == userId && v.linkId == linkId)).length

/-! ### Event Bus / Subscription Dispatcher

Modelled from the spec: the live fan-out mechanism behind the newLink /
newVote subscription resolvers (README: prisma.$subscribe, i.e. the Prisma
realtime engine) is not part of this repository's sources; the design (§2,
§5, §9) specifies it as a registry keyed by event kind mapping to the set of
currently-registered listener channels, where publish delivers a copy of the
payload to the snapshot of listeners registered at publish time. -/

/-- The two event kinds served by the subscription resolvers. -/
inductive EventKind where
  | newLink
  | newVote
deriving DecidableEq, Repr

/-- The kind under which an event is published (the mutation_in CREATED
filter of newLinkSubscribe / newVoteSubscribe). -/
def eventKind : Event → EventKind
  | .linkCreated _ => .newLink
  | .voteCreated _ => .newVote

/-- Modelled from the spec: the Event Bus registry — the set of
currently-registered listeners, each a channel id paired with the event kind
it subscribed to. -/
structure Bus where
  listeners : List (Nat × EventKind)
deriving DecidableEq, Repr

/-- Modelled from the spec: registering one listener for one event kind
(each subscription connection owns exactly one registration). -/
def subscribeBus (b : Bus) (id : Nat) (k : EventKind) : Bus :=
  if (id, k) ∈ b.listeners then b else { listeners := b.listeners ++ [(id, k)] }

/-- Modelled from the spec: publish walks the snapshot of listeners
registered for the event's kind and pushes a copy of the payload to each;
the deliveries are returned as (listener id, payload) pairs. -/
def publish (b : Bus) (e : Event) : List (Nat × Event) :=
  (b.listeners.filter (fun p => p.2 == eventKind e)).map (fun p => (p.1, e))

/-- Publishing every event a mutation emitted, in order. -/
def publishAll (b : Bus) : List Event → List (Nat × Event)
  | [] => []
  | e :: es => publish b e ++ publishAll b es

/-- The deliveries caused by one post mutation against the bus state `b`
at publish time. -/
def postDeliveries (s : Store) (b : Bus) (auth : Option String)
    (url description : String) : List (Nat × Event) :=
  publishAll b (emittedEvents (post s auth url description))

/-! ### Concrete sample data (used to instantiate proved theorems) -/

def sampleUser : User :=
  { id := "u1", name := "Alice", email := "alice@x.io", password := bcryptHash "pw" }

def sampleLink1 : Link :=
  { id := "l1", createdAt := 0, description := "a graphql intro",
    url := "http://x.io", postedBy := some "u1" }

def sampleLink2 : Link :=
  { id := "l2", createdAt := 1, description := "other",
    url := "http://a.io", postedBy := some "u1" }

def sampleStore : Store :=
  { users := [sampleUser], links := [sampleLink1, sampleLink2],
    votes := [], nextId := 3 }

/-- A well-formed bearer header for the sample user. -/
def sampleAuth : Option String := some ("Bearer " ++ jwtSign "u1")

/-- An empty store. -/
def emptyStore : Store := { users := [], links := [], votes := [], nextId := 0 }

/-- The User record signup persists for Bob in the empty store. -/
def bobUser : User :=
  { id := freshId emptyStore, name := "Bob", email := "e@x", password := bcryptHash "pw" }

/-- The AuthPayload Bob's signup returns. -/
def bobPayload : AuthPayload := { token := jwtSign bobUser.id, user := bobUser }

/-- The store after Bob's signup. -/
def bobStore : Store := { emptyStore with users := [bobUser], nextId := 1 }

/-- The store after the sample user votes for link l1. -/
def votedStore : Store := applyStore sampleStore (vote sampleStore sampleAuth "l1")

/-- A bus with one newLink listener and one newVote listener. -/
def sampleBus : Bus := { listeners := [(0, EventKind.newLink), (1, EventKind.newVote)] }

/-- The Link a post of ("u", "d") by the sample user creates. -/
def postedLink : Link :=
  { id := freshId sampleStore, createdAt := sampleStore.nextId,
    description := "d", url := "u", postedBy := some "u1" }

/-- The store that post leaves behind. -/
def postedStore : Store :=
  { sampleStore with
      links := sampleStore.links ++ [postedLink],
      nextId := sampleStore.nextId + 1 }

/-! ## Theorems -/

/-- Ordering is a permutation, so it preserves membership. -/
theorem mem_orderLinks {ob : Option LinkOrderBy} {ls : List Link} {l : Link} :
    l ∈ orderLinks ob ls ↔ l ∈ ls := by
  cases ob with
  | none => exact Iff.rfl
  | some o => cases o <;> exact (List.mergeSort_perm _ _).mem_iff

/-- The Bool substring test decides list-infix containment. -/
theorem strContains_iff {hay needle : String} :
    strContains hay needle = true ↔ needle.data <:+: hay.data := by
  simp [strContains]

/-- C10: for every store and every skip/first/orderBy, feed with the empty
string as filter returns exactly the same result as feed with the filter
absent — the empty-string filter is treated as no filter (the JS
conditional `args.filter ? ... : ...` takes the else branch on ""). -/
theorem feed_empty_filter_eq_absent (s : Store) (skip first : Option Nat)
    (ob : Option LinkOrderBy) :
    feed s (some "") skip first ob = feed s none skip first ob := rfl

/-- C3: feed with a given filter string returns exactly those Links whose
description or url contains the filter as a (case-sensitive) substring —
OR semantics — and no Link lacking it in both fields; feed takes no
credential at all (no authentication required). -/
theorem feed_filter_semantics (s : Store) (f : String)
    (ob : Option LinkOrderBy) (l : Link) :
    l ∈ (feed s (some f) none none ob).links ↔
      (l ∈ s.links ∧ (f.data <:+: l.description.data ∨ f.data <:+: l.url.data)) := by
  by_cases hf : f = ""
  · subst hf
    simp [feed, prismaLinks, takeOpt, feedWhere, mem_orderLinks, linkMatches]
  · simp [feed, prismaLinks, takeOpt, feedWhere, hf, mem_orderLinks,
      List.mem_filter, linkMatches, strContains]

/-- C4: the count feed returns equals the number of Links matching the
filter for all skip/first values (the count query applies no pagination);
the links list never exceeds `first` elements when `first` is given, and is
the `skip`-offset, `first`-truncated segment of the unpaginated result. -/
theorem feed_pagination_count (s : Store) (filter : Option String)
    (skip first : Option Nat) (ob : Option LinkOrderBy) :
    (feed s filter skip first ob).count
        = (s.links.filter (linkMatches (feedWhere filter))).length
    ∧ (∀ n, first = some n → (feed s filter skip first ob).links.length ≤ n)
    ∧ (feed s filter skip first ob).links
        = takeOpt first ((feed s filter none none ob).links.drop (skip.getD 0)) := by
  refine ⟨rfl, ?_, ?_⟩
  · intro n hn
    subst hn
    simp [feed, prismaLinks, takeOpt]
  · simp [feed, prismaLinks, takeOpt]

/-- C4 witness: the pagination/count theorem instantiated on the sample
store with filter "a", skip 1, first 1. -/
theorem feed_pagination_count_witness :
    (feed sampleStore (some "a") (some 1) (some 1) none).count = 2
    ∧ (feed sampleStore (some "a") (some 1) (some 1) none).links.length ≤ 1 := by
  have h := feed_pagination_count sampleStore (some "a") (some 1) (some 1) none
  refine ⟨?_, h.2.1 1 rfl⟩
  rw [h.1]
  decide

/-- Removing the first occurrence of a pattern from a string that starts
with that pattern leaves exactly the rest. -/
theorem removeFirstAux_append (pat rest : List Char) :
    removeFirstAux pat (pat ++ rest) = rest := by
  cases pat with
  | nil =>
    cases rest with
    | nil => rfl
    | cons c cs => simp [removeFirstAux, List.isPrefixOf]
  | cons p ps =>
    rw [List.cons_append, removeFirstAux]
    have hpre : (p :: ps).isPrefixOf (p :: (ps ++ rest)) = true := by
      rw [List.isPrefixOf_iff_prefix, ← List.cons_append]
      exact List.prefix_append _ _
    rw [if_pos hpre]
    exact List.drop_left (p :: ps) rest

/-- Stripping "Bearer " from a well-formed bearer header yields the token. -/
theorem replaceFirst_bearer (t : String) :
    replaceFirst ("Bearer " ++ t) "Bearer " = t := by
  apply String.ext
  show removeFirstAux ("Bearer ").data (("Bearer " ++ t)).data = t.data
  rw [String.data_append]
  exact removeFirstAux_append _ _

/-- Token round trip: verifying a signed token recovers the subject id. -/
theorem jwtVerify_sign (uid : String) : jwtVerify (jwtSign uid) = some uid := rfl

/-- A well-formed bearer header for a signed token authenticates as the
token's subject. -/
theorem getUserId_bearer (uid : String) :
    getUserId (some ("Bearer " ++ jwtSign uid)) = .ok uid := by
  have hne : ("Bearer " ++ jwtSign uid) ≠ "" := by
    intro h
    have h2 := congrArg String.data h
    rw [String.data_append] at h2
    simp [jwtSign] at h2
  simp [getUserId, hne, replaceFirst_bearer, jwtVerify_sign]

/-- The modelled bcrypt hash is injective. -/
theorem bcryptHash_injective : Function.Injective bcryptHash := by
  intro a b h
  apply String.ext
  have h2 := congrArg String.data h
  simpa [bcryptHash] using h2

/-- The modelled bcrypt hash never equals its input (the stored credential
is not the plaintext). -/
theorem bcryptHash_ne_self (p : String) : bcryptHash p ≠ p := by
  intro h
  have h2 := congrArg (fun s => s.data.length) h
  simp [bcryptHash] at h2
  omega

/-- Closed form of the signup resolver. -/
theorem signup_eq (s : Store) (email password userName : String) :
    signup s email password userName =
      if s.users.any (fun u => u.email == email) then .error .DuplicateEmail
      else
        .ok ({ token := jwtSign (freshId s),
               user := { id := freshId s, name := userName, email := email,
                         password := bcryptHash password } },
             { s with
                 users := s.users ++
                   [{ id := freshId s, name := userName, email := email,
                      password := bcryptHash password }],
                 nextId := s.nextId + 1 }, []) := by
  unfold signup createUser
  cases h : s.users.any (fun u => u.email == email) <;> simp [h]

/-- find? by id returns the member itself when the ids are unique. -/
theorem find?_id_eq_some_of_mem {ls : List Link} {l : Link}
    (hnd : (ls.map Link.id).Nodup) (hm : l ∈ ls) :
    ls.find? (fun x => x.id == l.id) = some l := by
  induction ls with
  | nil => cases hm
  | cons a as ih =>
    rw [List.map_cons, List.nodup_cons] at hnd
    rcases List.mem_cons.mp hm with h | h
    · subst h
      exact List.find?_cons_of_pos _ (beq_self_eq_true _)
    · have hne : ¬ ((fun x : Link => x.id == l.id) a = true) := by
        simp only [beq_iff_eq]
        intro he
        exact hnd.1 (he ▸ List.mem_map_of_mem Link.id h)
      rw [List.find?_cons_of_neg as hne]
      exact ih hnd.2 h

/-- C5: the link query returns the Link carrying the requested id when one
exists (uniquely, given unique ids), and an explicit null (none) — it is a
total function with no error outcome — when no Link matches. -/
theorem link_query_by_id (s : Store) (id : String)
    (hnd : (s.links.map Link.id).Nodup) :
    (∀ l : Link, linkQuery s id = some l ↔ (l ∈ s.links ∧ l.id = id))
    ∧ (linkQuery s id = none ↔ ∀ l ∈ s.links, l.id ≠ id) := by
  constructor
  · intro l
    constructor
    · intro h
      have h' : s.links.find? (fun x => x.id == id) = some l := h
      refine ⟨List.mem_of_find?_eq_some h', ?_⟩
      have hp := List.find?_some h'
      simpa using hp
    · rintro ⟨hm, hid⟩
      subst hid
      exact find?_id_eq_some_of_mem hnd hm
  · simp [linkQuery]

/-- C5 witness: on the sample store, the query finds link l1 by its id and
returns null for an unmatched id. -/
theorem link_query_by_id_witness :
    linkQuery sampleStore "l1" = some sampleLink1
    ∧ linkQuery sampleStore "nope" = none := by
  have h1 := link_query_by_id sampleStore "l1" (by decide)
  have h2 := link_query_by_id sampleStore "nope" (by decide)
  exact ⟨(h1.1 sampleLink1).mpr ⟨by decide, rfl⟩, h2.2.mpr (by decide)⟩

/-- C6: after a successful signup, login with the same email and password
succeeds, returning the same payload, whose token the identity extractor
(as a Bearer header) verifies back to that user's id; login with the same
email and any other password yields InvalidCredentials; login with an email
held by no User yields NoSuchUser. -/
theorem signup_login_roundtrip (s : Store) (email password userName p2 : String)
    (pay : AuthPayload) (s2 : Store) (ev : List Event)
    (hs : signup s email password userName = .ok (pay, s2, ev))
    (hp2 : p2 ≠ password) :
    login s2 email password = .ok (pay, s2, [])
    ∧ jwtVerify pay.token = some pay.user.id
    ∧ getUserId (some ("Bearer " ++ pay.token)) = .ok pay.user.id
    ∧ login s2 email p2 = .error .InvalidCredentials
    ∧ ((∀ u ∈ s.users, u.email ≠ email) → login s email password = .error .NoSuchUser) := by
  rw [signup_eq] at hs
  split at hs
  · exact absurd hs (by simp)
  · rename_i hany
    have hany' : s.users.any (fun u => u.email == email) = false := by
      cases h : s.users.any (fun u => u.email == email)
      · rfl
      · exact absurd h hany
    simp only [Except.ok.injEq, Prod.mk.injEq] at hs
    obtain ⟨hpay, hs2, hev⟩ := hs
    subst hpay
    subst hs2
    subst hev
    have hnone : s.users.find? (fun u => u.email == email) = none := by
      refine List.find?_eq_none.mpr ?_
      intro x hx
      have hne := List.any_eq_false.mp hany' x hx
      simpa using hne
    have hfind :
        (s.users ++
          [({ id := freshId s, name := userName, email := email,
              password := bcryptHash password } : User)]).find?
            (fun u => u.email == email) =
          some ({ id := freshId s, name := userName, email := email,
                  password := bcryptHash password } : User) := by
      rw [List.find?_append, hnone]
      simp
    have hbadpw : bcryptCompare p2 (bcryptHash password) = false := by
      refine beq_eq_false_iff_ne.mpr ?_
      intro h
      exact hp2 (bcryptHash_injective h)
    refine ⟨?_, jwtVerify_sign _, getUserId_bearer _, ?_, ?_⟩
    · simp [login, prismaUserByEmail, hfind, bcryptCompare]
    · simp [login, prismaUserByEmail, hfind, hbadpw]
    · intro hno
      have hfnone : prismaUserByEmail s email = none := by
        refine List.find?_eq_none.mpr ?_
        intro x hx
        simpa using hno x hx
      simp [login, hfnone]

/-- C6 witness: Bob signs up in the empty store; login with his credentials
succeeds, login with a wrong password fails. -/
theorem signup_login_roundtrip_witness :
    login bobStore "e@x" "pw" = .ok (bobPayload, bobStore, [])
    ∧ login bobStore "e@x" "xx" = .error .InvalidCredentials := by
  have h := signup_login_roundtrip emptyStore "e@x" "pw" "Bob" "xx"
      bobPayload bobStore [] (by decide) (by decide)
  exact ⟨h.1, h.2.2.2.1⟩

/-- C7: signup persists exactly one new User whose password field is the
salted one-way hash of the supplied plaintext — not the plaintext itself —
and returns a token issued for the new User's id together with that user. -/
theorem signup_stores_hash (s : Store) (email password userName : String)
    (pay : AuthPayload) (s2 : Store) (ev : List Event)
    (hs : signup s email password userName = .ok (pay, s2, ev)) :
    s2.users = s.users ++ [pay.user]
    ∧ pay.user.password = bcryptHash password
    ∧ pay.user.password ≠ password
    ∧ pay.token = jwtSign pay.user.id
    ∧ pay.user.email = email
    ∧ pay.user.name = userName := by
  rw [signup_eq] at hs
  split at hs
  · exact absurd hs (by simp)
  · simp only [Except.ok.injEq, Prod.mk.injEq] at hs
    obtain ⟨hpay, hs2, hev⟩ := hs
    subst hpay
    subst hs2
    exact ⟨rfl, rfl, bcryptHash_ne_self password, rfl, rfl, rfl⟩

/-- C7 witness: Bob's signup stored the hash of "pw", not "pw". -/
theorem signup_stores_hash_witness :
    bobStore.users = emptyStore.users ++ [bobPayload.user]
    ∧ bobPayload.user.password = bcryptHash "pw"
    ∧ bobPayload.user.password ≠ "pw" := by
  have h := signup_stores_hash emptyStore "e@x" "pw" "Bob"
      bobPayload bobStore [] (by decide)
  exact ⟨h.1, h.2.1, h.2.2.1⟩

/-- C8: for an authenticated caller — any authenticated caller, the identity
is discarded, so the outcome is the same for every accepted credential, with
no ownership restriction — updateLink and deleteLink apply the store
update/delete by id and return the resulting/deleted Link, and fail with
NotFound exactly when no Link carries the id. -/
theorem update_delete_link_by_id (s : Store) (auth auth2 : Option String)
    (uid uid2 id url d : String)
    (hauth : getUserId auth = .ok uid)
    (hauth2 : getUserId auth2 = .ok uid2) :
    ((∀ l ∈ s.links, l.id ≠ id) →
        updateLink s auth id url d = .error .NotFound
        ∧ deleteLink s auth id = .error .NotFound)
    ∧ (∀ l, s.links.find? (fun x => x.id == id) = some l →
        updateLink s auth id url d =
          .ok ({ l with url := url, description := d },
               { s with
                   links := s.links.map
                     (fun x => if x.id == id
                               then { l with url := url, description := d }
                               else x) },
               [])
        ∧ deleteLink s auth id =
          .ok (l, { s with links := s.links.eraseP (fun x => x.id == id) }, []))
    ∧ updateLink s auth id url d = updateLink s auth2 id url d
    ∧ deleteLink s auth id = deleteLink s auth2 id := by
  refine ⟨?_, ?_, ?_, ?_⟩
  · intro h
    have hn : s.links.find? (fun x => x.id == id) = none := by
      refine List.find?_eq_none.mpr ?_
      intro x hx
      simpa using h x hx
    exact ⟨by simp [updateLink, hauth, updateLinkStore, hn],
           by simp [deleteLink, hauth, deleteLinkStore, hn]⟩
  · intro l hl
    exact ⟨by simp [updateLink, hauth, updateLinkStore, hl],
           by simp [deleteLink, hauth, deleteLinkStore, hl]⟩
  · simp [updateLink, hauth, hauth2]
  · simp [deleteLink, hauth, hauth2]

/-- C8 witness: the sample user deletes link l1 (which they do own here,
but the theorem was applied with an identity-independent credential) and
updateLink on an unknown id fails with NotFound. -/
theorem update_delete_link_by_id_witness :
    deleteLink sampleStore sampleAuth "l1" =
      .ok (sampleLink1, { sampleStore with links := [sampleLink2] }, [])
    ∧ updateLink sampleStore sampleAuth "nope" "u" "d" = .error .NotFound := by
  have h1 := update_delete_link_by_id sampleStore sampleAuth sampleAuth
      "u1" "u1" "l1" "u" "d" (by decide) (by decide)
  have h2 := update_delete_link_by_id sampleStore sampleAuth sampleAuth
      "u1" "u1" "nope" "u" "d" (by decide) (by decide)
  have hd := (h1.2.1 sampleLink1 (by decide)).2
  have hu := (h2.1 (by decide)).1
  refine ⟨?_, hu⟩
  rw [hd]
  decide

/-- Appending one Vote record changes a pair's count by one exactly when the
new record carries that pair. -/
theorem pairCount_append_single (s : Store) (v : Vote) (u l : String) :
    pairCount { s with votes := s.votes ++ [v], nextId := s.nextId + 1 } u l
      = pairCount s u l + (if v.userId == u && v.linkId == l then 1 else 0) := by
  unfold pairCount
  by_cases h : (v.userId == u && v.linkId == l) = true <;>
    simp [List.filter_append, h]

/-- A pair with no existing Vote has count zero. -/
theorem pairCount_eq_zero_of_not_voteExists (s : Store) (uid linkId : String)
    (h : voteExists s uid linkId = false) : pairCount s uid linkId = 0 := by
  unfold pairCount
  rw [List.length_eq_zero]
  refine List.filter_eq_nil_iff.mpr ?_
  intro v hv
  have hx := List.any_eq_false.mp h v hv
  simpa using hx

/-- C2: vote fails with DuplicateVote — creating nothing — when a Vote for
the exact (caller, link) pair exists, creates exactly one Vote connecting
the caller to the link otherwise, and hence preserves the at-most-one-Vote-
per-(User, Link)-pair invariant across serialized attempts. -/
theorem vote_at_most_one_per_pair (s : Store) (auth : Option String)
    (uid linkId : String) (hauth : getUserId auth = .ok uid) :
    (voteExists s uid linkId = true →
        vote s auth linkId = .error .DuplicateVote
        ∧ applyStore s (vote s auth linkId) = s)
    ∧ (voteExists s uid linkId = false → userExists s uid = true →
        linkExistsId s linkId = true →
        ∃ v s2, vote s auth linkId = .ok (v, s2, [.voteCreated v])
          ∧ v.userId = uid ∧ v.linkId = linkId
          ∧ s2.votes = s.votes ++ [v])
    ∧ (∀ u l, pairCount s u l ≤ 1 →
        pairCount (applyStore s (vote s auth linkId)) u l ≤ 1) := by
  refine ⟨?_, ?_, ?_⟩
  · intro hex
    exact ⟨by simp [vote, hauth, hex], by simp [applyStore, vote, hauth, hex]⟩
  · intro hex hu hl
    refine ⟨{ id := freshId s, linkId := linkId, userId := uid },
      { s with votes := s.votes ++ [{ id := freshId s, linkId := linkId, userId := uid }],
               nextId := s.nextId + 1 }, ?_, rfl, rfl, rfl⟩
    simp [vote, hauth, hex, createVote, hu, hl]
  · intro u l hle
    cases hex : voteExists s uid linkId with
    | true =>
      simpa [applyStore, vote, hauth, hex] using hle
    | false =>
      cases hcv : (userExists s uid && linkExistsId s linkId) with
      | false =>
        simpa [applyStore, vote, hauth, hex, createVote, hcv] using hle
      | true =>
        have hstore : applyStore s (vote s auth linkId) =
            { s with
                votes := s.votes ++ [{ id := freshId s, linkId := linkId, userId := uid }],
                nextId := s.nextId + 1 } := by
          simp [applyStore, vote, hauth, hex, createVote, hcv]
        rw [hstore, pairCount_append_single]
        by_cases hp : (({ id := freshId s, linkId := linkId, userId := uid } : Vote).userId == u
            && ({ id := freshId s, linkId := linkId, userId := uid } : Vote).linkId == l) = true
        · have hul : uid = u ∧ linkId = l := by simpa using hp
          obtain ⟨h1, h2⟩ := hul
          subst h1
          subst h2
          have h0 := pairCount_eq_zero_of_not_voteExists s uid linkId hex
          simp [hp, h0]
        · simpa [hp] using hle

/-- C2 witness: after the sample user's first vote for l1, a second vote
attempt yields DuplicateVote and exactly one Vote for the pair exists. -/
theorem vote_at_most_one_per_pair_witness :
    vote votedStore sampleAuth "l1" = .error .DuplicateVote
    ∧ pairCount votedStore "u1" "l1" = 1 := by
  have h := vote_at_most_one_per_pair votedStore sampleAuth "u1" "l1" (by decide)
  exact ⟨(h.1 (by decide)).1, by decide⟩

/-- C1 counterexample: an Authorization header that is malformed in the
claim's sense — it does not contain the "Bearer " prefix at all — but whose
whole value verifies as a token is accepted: getUserId succeeds (the JS
replace of a non-occurring pattern is the identity) and post goes on to
mutate the store instead of failing with NotAuthenticated. -/
theorem auth_gate_counterexample :
    strContains (jwtSign "u1") "Bearer " = false
    ∧ getUserId (some (jwtSign "u1")) = .ok "u1"
    ∧ (post sampleStore (some (jwtSign "u1")) "u" "d").isOk = true := by
  decide

/-- C1 (amended): when the identity extractor rejects the credential, every
protected mutation (post, updateLink, deleteLink, vote) fails with
NotAuthenticated before any facade mutation call — the store is unchanged
and no event is published — and the rejected credentials are exactly: header
absent, header empty, or token verification failing on the header value
after stripping the first "Bearer " occurrence (a header merely lacking the
"Bearer " prefix is not rejected as such: it authenticates whenever its
value verifies as a token). -/
theorem auth_gate (s : Store) (auth : Option String) (url d id linkId : String)
    (h : getUserId auth = .error .NotAuthenticated) :
    (auth = none ∨ auth = some ""
      ∨ ∃ a, auth = some a ∧ jwtVerify (replaceFirst a "Bearer ") = none)
    ∧ (post s auth url d = .error .NotAuthenticated
      ∧ applyStore s (post s auth url d) = s
      ∧ emittedEvents (post s auth url d) = [])
    ∧ (updateLink s auth id url d = .error .NotAuthenticated
      ∧ applyStore s (updateLink s auth id url d) = s)
    ∧ (deleteLink s auth id = .error .NotAuthenticated
      ∧ applyStore s (deleteLink s auth id) = s)
    ∧ (vote s auth linkId = .error .NotAuthenticated
      ∧ applyStore s (vote s auth linkId) = s
      ∧ emittedEvents (vote s auth linkId) = []) := by
  refine ⟨?_, ?_⟩
  · cases auth with
    | none => exact Or.inl rfl
    | some a =>
      by_cases ha : a = ""
      · exact Or.inr (Or.inl (by rw [ha]))
      · refine Or.inr (Or.inr ⟨a, rfl, ?_⟩)
        cases hv : jwtVerify (replaceFirst a "Bearer ") with
        | none => rfl
        | some uid => simp [getUserId, ha, hv] at h
  · refine ⟨⟨?_, ?_, ?_⟩, ⟨?_, ?_⟩, ⟨?_, ?_⟩, ⟨?_, ?_, ?_⟩⟩ <;>
      simp [post, updateLink, deleteLink, vote, applyStore, emittedEvents, h]

/-- C1 witness: the amended gate applied to an absent header on the sample
store. -/
theorem auth_gate_witness :
    post sampleStore none "u" "d" = .error .NotAuthenticated
    ∧ applyStore sampleStore (vote sampleStore none "l1") = sampleStore := by
  have h := auth_gate sampleStore none "u" "d" "l1" "l1" (by decide)
  exact ⟨h.2.1.1, h.2.2.2.2.2.1⟩

/-- Deliveries of one publish, counted per listener: each registration of
(id, kind of e) receives exactly one copy of the payload. -/
theorem publish_count_aux (ls : List (Nat × EventKind)) (e : Event) (id : Nat) :
    ((ls.filter (fun p => p.2 == eventKind e)).map (fun p => (p.1, e))).count (id, e)
      = ls.count (id, eventKind e) := by
  induction ls with
  | nil => rfl
  | cons a as ih =>
    rcases a with ⟨i, k⟩
    by_cases hk : k = eventKind e
    · subst hk
      rw [List.filter_cons_of_pos (by simp)]
      rw [List.map_cons, List.count_cons, List.count_cons, ih]
      by_cases hi : i = id <;> simp [hi]
    · rw [List.filter_cons_of_neg (by simpa using hk)]
      rw [List.count_cons, ih]
      simp [hk]

/-- In a duplicate-free listener registry a registered listener is counted
exactly once. -/
theorem count_eq_one_of_nodup_mem (ls : List (Nat × EventKind))
    (x : Nat × EventKind) (h : ls.Nodup) (hm : x ∈ ls) : ls.count x = 1 := by
  induction ls with
  | nil => cases hm
  | cons a as ih =>
    rw [List.nodup_cons] at h
    rcases List.mem_cons.mp hm with rfl | hmem
    · rw [List.count_cons, List.count_eq_zero_of_not_mem h.1]
      simp
    · rw [List.count_cons, ih h.2 hmem]
      have hax : (a == x) = false := by
        refine beq_eq_false_iff_ne.mpr ?_
        rintro rfl
        exact h.1 hmem
      simp [hax]

/-- C9: a successful post publishes exactly one link.created event carrying
the created Link; a listener registered for newLink on the bus before the
publish receives exactly one copy of that payload, and a listener not yet
registered at publish time (one that registers only after the mutation)
receives none — publish delivers to the snapshot of listeners at publish
time. -/
theorem newLink_delivery (s : Store) (b : Bus) (auth : Option String)
    (url d : String) (l : Link) (s2 : Store) (es : List Event) (id : Nat)
    (hnd : b.listeners.Nodup)
    (hp : post s auth url d = .ok (l, s2, es)) :
    es = [.linkCreated l]
    ∧ ((id, EventKind.newLink) ∈ b.listeners →
        (postDeliveries s b auth url d).count (id, Event.linkCreated l) = 1)
    ∧ ((id, EventKind.newLink) ∉ b.listeners →
        (postDeliveries s b auth url d).count (id, Event.linkCreated l) = 0) := by
  have hes : es = [.linkCreated l] := by
    unfold post at hp
    split at hp
    · simp at hp
    · split at hp
      · simp at hp
      · simp only [Except.ok.injEq, Prod.mk.injEq] at hp
        obtain ⟨h1, _, h3⟩ := hp
        subst h1
        exact h3.symm
  have hdel : postDeliveries s b auth url d = publish b (.linkCreated l) := by
    unfold postDeliveries
    rw [hp]
    show publishAll b es = publish b (.linkCreated l)
    rw [hes]
    show publish b (.linkCreated l) ++ publishAll b [] = publish b (.linkCreated l)
    simp [publishAll]
  have hcount : (postDeliveries s b auth url d).count (id, Event.linkCreated l)
      = b.listeners.count (id, EventKind.newLink) := by
    rw [hdel]
    exact publish_count_aux b.listeners (.linkCreated l) id
  refine ⟨hes, ?_, ?_⟩
  · intro hm
    rw [hcount]
    exact count_eq_one_of_nodup_mem b.listeners _ hnd hm
  · intro hm
    rw [hcount]
    exact List.count_eq_zero_of_not_mem hm

/-- C9 witness: with one registered newLink listener (channel 0) and one
newVote listener (channel 1), the sample post delivers the created Link
exactly once to channel 0 and never to channel 9, which was not registered
at publish time. -/
theorem newLink_delivery_witness :
    (postDeliveries sampleStore sampleBus sampleAuth "u" "d").count
        (0, Event.linkCreated postedLink) = 1
    ∧ (postDeliveries sampleStore sampleBus sampleAuth "u" "d").count
        (9, Event.linkCreated postedLink) = 0 := by
  have h0 := newLink_delivery sampleStore sampleBus sampleAuth "u" "d"
      postedLink postedStore [.linkCreated postedLink] 0 (by decide) (by decide)
  have h9 := newLink_delivery sampleStore sampleBus sampleAuth "u" "d"
      postedLink postedStore [.linkCreated postedLink] 9 (by decide) (by decide)
  exact ⟨h0.2.1 (by decide), h9.2.2 (by decide)⟩

end HackerNews
